import Mathlib

/-!
Shallow embedding of the quiz socket server (source of authority:
`src/unnamed/part_001`; `src/server.js` is an earlier variant of the same
server without the streak mechanics and timer margin).

Modelling conventions:
* `Date.now()` timestamps and durations are `Nat` milliseconds; handlers take
  `now` as an explicit argument.
* `uuid()` is modelled by a fresh-id counter threaded through the server
  state (`nextUuid`); ids, socket ids and pins are `Nat`.
* JS `Map` objects (`SESSIONS`, `session.players`) are association lists in
  insertion order; `Map.set` replaces the first occurrence in place or
  appends, `Map.delete` removes the first occurrence.
* The float expression `Math.floor((remainingMs / durationMs) * 500)` is
  modelled by exact natural division `remainingMs * 500 / durationMs`.
* `setTimeout(cb, d)` at time `now` is recorded as an absolute fire time
  `now + d` in `Session.timer`; a timer-fire event may occur at any
  `now ≥` that fire time.
* JS falsiness is modelled where it matters: `!session.deadline` is true for
  `null` and for `0`, `q.durationMs || 15000` maps both absent and `0` to
  `15000`.
-/

/-- A normalized question as stored by the `session:start` handler. -/
structure Question where
  id : Nat
  prompt : String
  options : List String
  answer : String
  durationMs : Nat
deriving DecidableEq, Repr

/-- A raw question as supplied in the `session:start` payload: `id` and
`durationMs` are optional (`q.id || uuid()`, `q.durationMs || 15000`). -/
structure QuestionInput where
  id : Option Nat
  prompt : String
  options : List String
  answer : String
  durationMs : Option Nat
deriving DecidableEq, Repr

/-- The `player.lastAnswer` record. -/
structure LastAnswer where
  qid : Nat
  correct : Bool
  gained : Int
  timeBonus : Nat
  streakBonus : Nat
  penalty : Int
deriving DecidableEq, Repr

/-- A participant record as created by `addPlayer`. -/
structure Player where
  id : Nat
  socketId : Nat
  name : String
  score : Int
  lastAnswer : Option LastAnswer
  streak : Nat
deriving DecidableEq, Repr

/-- A session object as created by `createSession`.  `timer` stores the
absolute fire time of the pending auto-advance `setTimeout`, `none` when no
timer is armed. -/
structure Session where
  id : Nat
  pin : Nat
  hostSocketId : Nat
  players : List (Nat × Player)
  questions : List Question
  questionIdx : Int
  deadline : Option Nat
  timer : Option Nat
deriving DecidableEq, Repr

/-- Association-list lookup, first occurrence wins (JS `Map.get`). -/
def lookupA {α : Type} (l : List (Nat × α)) (k : Nat) : Option α :=
  match l with
  | [] => none
  | (k', v) :: tl => if k' = k then some v else lookupA tl k

/-- Association-list update: replace the first binding of `k` in place, or
append a new binding (JS `Map.set`). -/
def setA {α : Type} (l : List (Nat × α)) (k : Nat) (v : α) : List (Nat × α) :=
  match l with
  | [] => [(k, v)]
  | (k', v') :: tl => if k' = k then (k, v) :: tl else (k', v') :: setA tl k v

/-- Association-list removal of the first binding of `k` (JS `Map.delete`). -/
def removeA {α : Type} (l : List (Nat × α)) (k : Nat) : List (Nat × α) :=
  match l with
  | [] => []
  | (k', v') :: tl => if k' = k then tl else (k', v') :: removeA tl k

/-- `currentQuestion(session)`: `session.questions[session.questionIdx] || null`;
a negative or out-of-range index yields `none`. -/
def currentQuestion (s : Session) : Option Question :=
  if s.questionIdx < 0 then none else s.questions.get? s.questionIdx.toNat

/-- `player.lastAnswer && player.lastAnswer.qid === q.id`. -/
def alreadyAnswered (p : Player) (q : Question) : Bool :=
  match p.lastAnswer with
  | some la => la.qid = q.id
  | none => false

/-- The time bonus `Math.floor((remainingMs / q.durationMs) * TIME_BONUS_MAX)`
with `TIME_BONUS_MAX = 500`, in exact arithmetic. -/
def timeBonusOf (remainingMs durationMs : Nat) : Nat :=
  remainingMs * 500 / durationMs

/-- Result value of `scoreAnswer`: `fail r` is `{ok:false, reason:r}`,
`ok isCorrect gained penalty correct streak` is the `{ok:true, ...}` record
(the correct branch carries no penalty field, read back as `0`). -/
inductive ScoreResult where
  | fail (reason : String)
  | ok (isCorrect : Bool) (gained : Int) (penalty : Int) (correct : String) (streak : Nat)
deriving DecidableEq, Repr

/-- `scoreAnswer(session, player, payload)` at time `now`; returns the result
together with the (possibly mutated) player. -/
def scoreAnswer (s : Session) (p : Player) (ans : String) (now : Nat) :
    ScoreResult × Player :=
  match currentQuestion s with
  | none => (.fail "no-question", p)
  | some q =>
    if alreadyAnswered p q then (.fail "already-answered", p)
    else
      match s.deadline with
      | none => (.fail "too-late", p)
      | some dl =>
        if dl = 0 ∨ now > dl then (.fail "too-late", p)
        else
          let remainingMs := dl - now
          let tb := timeBonusOf remainingMs q.durationMs
          if ans = q.answer then
            let streak' := p.streak + 1
            let sb := streak' * 100
            let gained : Int := 1000 + (tb : Int) + (sb : Int)
            let p' : Player :=
              { p with
                streak := streak'
                score := p.score + gained
                lastAnswer := some
                  { qid := q.id, correct := true, gained := gained,
                    timeBonus := tb, streakBonus := sb, penalty := 0 } }
            (.ok true gained 0 q.answer streak', p')
          else
            let pen : Int := (p.streak : Int) * 100
            let p' : Player :=
              { p with
                score := max 0 (p.score - pen)
                streak := 0
                lastAnswer := some
                  { qid := q.id, correct := false, gained := 0,
                    timeBonus := 0, streakBonus := 0, penalty := pen } }
            (.ok false 0 pen q.answer 0, p')

/-- Synchronous replies sent through the `cb` acknowledgement. -/
inductive Reply where
  | fail (reason : String)
  | createOk (pin sessionId : Nat)
  | startOk
  | nextOk
  | joinOk (playerId pin : Nat)
  | answerOk (correct : Bool) (gained penalty : Int) (right : String) (streak : Nat)
deriving DecidableEq, Repr

/-- Broadcasts relevant to the claims (payloads of `question` and
`player:joined` broadcasts are not needed by any claim and are omitted;
`leaderboard` is recorded as a marker carrying the session pin). -/
inductive Emit where
  | sessionEnd (pin : Nat) (reason : String)
  | leaderboard (pin : Nat)
deriving DecidableEq, Repr

/-- The whole server: the `SESSIONS` map plus the fresh-uuid counter. -/
structure ServerState where
  sessions : List (Nat × Session)
  nextUuid : Nat
deriving DecidableEq, Repr

/-- Empty server at process start. -/
def initState : ServerState := { sessions := [], nextUuid := 0 }

/-- `createSession(hostSocketId)` with the (random, retried-until-fresh) pin
supplied as a parameter; a pin colliding with an active session is never
registered (`genPin` retries), so a colliding input leaves the state as is. -/
def createSession (st : ServerState) (hostSocketId pin : Nat) :
    ServerState × Reply :=
  if (lookupA st.sessions pin).isSome then (st, .createOk pin st.nextUuid)
  else
    let s : Session :=
      { id := st.nextUuid, pin := pin, hostSocketId := hostSocketId,
        players := [], questions := [], questionIdx := -1,
        deadline := none, timer := none }
    ({ sessions := setA st.sessions pin s, nextUuid := st.nextUuid + 1 },
      .createOk pin st.nextUuid)

/-- `addPlayer(session, socket, name)`: fresh player with score 0, streak 0,
no lastAnswer, replacing any existing entry for the same socket id. -/
def addPlayer (s : Session) (socketId : Nat) (name : String) (freshId : Nat) :
    Session × Player :=
  let player : Player :=
    { id := freshId, socketId := socketId,
      name := (if name = "" then "Guest" else name).take 40,
      score := 0, lastAnswer := none, streak := 0 }
  ({ s with players := setA s.players socketId player }, player)

/-- Normalize the `session:start` question payload:
`id: q.id || uuid()`, `durationMs: q.durationMs || 15000`; the fresh-uuid
counter is threaded through. -/
def normQuestions (u : Nat) (qs : List QuestionInput) : List Question × Nat :=
  match qs with
  | [] => ([], u)
  | q :: tl =>
    match q.id with
    | some i =>
      let r := normQuestions u tl
      ({ id := i, prompt := q.prompt, options := q.options, answer := q.answer,
         durationMs := match q.durationMs with | none => 15000 | some 0 => 15000 | some d => d } :: r.1, r.2)
    | none =>
      let r := normQuestions (u + 1) tl
      ({ id := u, prompt := q.prompt, options := q.options, answer := q.answer,
         durationMs := match q.durationMs with | none => 15000 | some 0 => 15000 | some d => d } :: r.1, r.2)

/-- `nextQuestion(session)` at time `now`: cancel any pending timer, advance
the index; past the end emit `session:end{done}` (timer cleared) and reply
`no-more`; otherwise set `deadline = now + durationMs` and arm the
auto-advance timer for `durationMs + 50` ms from `now`. -/
def nextQuestion (s : Session) (now : Nat) : Session × Reply :=
  let s1 : Session := { s with timer := none, questionIdx := s.questionIdx + 1 }
  match currentQuestion s1 with
  | none => (s1, .fail "no-more")
  | some q =>
    ({ s1 with deadline := some (now + q.durationMs),
               timer := some (now + q.durationMs + 50) },
      .nextOk)

/-- The `session:start` handler. -/
def onStart (st : ServerState) (socketId pin : Nat) (qs : List QuestionInput)
    (now : Nat) : ServerState × Reply :=
  match lookupA st.sessions pin with
  | none => (st, .fail "not-host")
  | some s =>
    if s.hostSocketId = socketId then
      let r := normQuestions st.nextUuid qs
      let s1 : Session := { s with questions := r.1, questionIdx := -1 }
      let s2 := (nextQuestion s1 now).1
      ({ sessions := setA st.sessions pin s2, nextUuid := r.2 }, .startOk)
    else (st, .fail "not-host")

/-- The `question:next` handler. -/
def onNext (st : ServerState) (socketId pin now : Nat) : ServerState × Reply :=
  match lookupA st.sessions pin with
  | none => (st, .fail "not-host")
  | some s =>
    if s.hostSocketId = socketId then
      let r := nextQuestion s now
      ({ st with sessions := setA st.sessions pin r.1 }, r.2)
    else (st, .fail "not-host")

/-- The pending auto-advance timer firing: it calls `nextQuestion` on its
session. It can only do so while armed (so at or after its fire time, and not
after having been cancelled). -/
def onTimerFire (st : ServerState) (pin now : Nat) : ServerState :=
  match lookupA st.sessions pin with
  | none => st
  | some s =>
    match s.timer with
    | none => st
    | some f =>
      if f ≤ now then
        { st with sessions := setA st.sessions pin (nextQuestion s now).1 }
      else st

/-- The `join` handler. -/
def onJoin (st : ServerState) (socketId pin : Nat) (name : String) :
    ServerState × Reply :=
  match lookupA st.sessions pin with
  | none => (st, .fail "not-found")
  | some s =>
    let r := addPlayer s socketId (if name = "" then "Guest" else name) st.nextUuid
    ({ sessions := setA st.sessions pin r.1, nextUuid := st.nextUuid + 1 },
      .joinOk r.2.id pin)

/-- The `answer` handler. -/
def onAnswer (st : ServerState) (socketId pin : Nat) (ans : String) (now : Nat) :
    ServerState × Reply :=
  match lookupA st.sessions pin with
  | none => (st, .fail "not-found")
  | some s =>
    match lookupA s.players socketId with
    | none => (st, .fail "not-joined")
    | some p =>
      match scoreAnswer s p ans now with
      | (.fail r, _) => (st, .fail r)
      | (.ok isC g pen corr stk, p') =>
        let s' : Session := { s with players := setA s.players socketId p' }
        ({ st with sessions := setA st.sessions pin s' },
          .answerOk isC g pen corr stk)

/-- One session's treatment inside the `disconnect` loop: a session hosted by
the leaving socket is ended and dropped from the registry; otherwise, if the
socket is a participant, only that participant entry is removed. -/
def disconnectSession (socketId : Nat) (e : Nat × Session) :
    Option (Nat × Session) :=
  if e.2.hostSocketId = socketId then none
  else if (lookupA e.2.players socketId).isSome then
    some (e.1, { e.2 with players := removeA e.2.players socketId })
  else some e

/-- The broadcast produced for one session by the `disconnect` loop:
`session:end{host-left}` for a hosted session, a refreshed leaderboard when a
participant entry was removed, nothing otherwise. -/
def disconnectEmit (socketId : Nat) (e : Nat × Session) : Option Emit :=
  if e.2.hostSocketId = socketId then some (.sessionEnd e.1 "host-left")
  else if (lookupA e.2.players socketId).isSome then some (.leaderboard e.1)
  else none

/-- The `disconnect` handler. -/
def onDisconnect (st : ServerState) (socketId : Nat) :
    ServerState × List Emit :=
  ({ st with sessions := st.sessions.filterMap (disconnectSession socketId) },
    st.sessions.filterMap (disconnectEmit socketId))

/-- Inbound events driving the server; `create` carries the pin chosen by
`genPin`, time-dependent events carry the current time. -/
inductive Event where
  | create (socketId pin : Nat)
  | start (socketId pin : Nat) (qs : List QuestionInput) (now : Nat)
  | next (socketId pin now : Nat)
  | join (socketId pin : Nat) (name : String)
  | answer (socketId pin : Nat) (ans : String) (now : Nat)
  | timerFire (pin now : Nat)
  | disconnect (socketId : Nat)
deriving DecidableEq, Repr

/-- State transition of one inbound event. -/
def applyEvent (st : ServerState) (e : Event) : ServerState :=
  match e with
  | .create sid pin => (createSession st sid pin).1
  | .start sid pin qs now => (onStart st sid pin qs now).1
  | .next sid pin now => (onNext st sid pin now).1
  | .join sid pin name => (onJoin st sid pin name).1
  | .answer sid pin ans now => (onAnswer st sid pin ans now).1
  | .timerFire pin now => onTimerFire st pin now
  | .disconnect sid => (onDisconnect st sid).1

/-- Run a sequence of events from a state. -/
def runEvents (st : ServerState) (evs : List Event) : ServerState :=
  match evs with
  | [] => st
  | e :: tl => runEvents (applyEvent st e) tl

/-! ### Helper lemmas about the association-list operations -/

theorem lookupA_setA_self {α : Type} (l : List (Nat × α)) (k : Nat) (v : α) :
    lookupA (setA l k v) k = some v := by
  induction l with
  | nil => simp [setA, lookupA]
  | cons hd tl ih =>
    by_cases h : hd.1 = k
    · simp [setA, h, lookupA]
    · simp [setA, h, lookupA, ih]

theorem lookupA_mem {α : Type} {l : List (Nat × α)} {k : Nat} {v : α}
    (h : lookupA l k = some v) : (k, v) ∈ l := by
  induction l with
  | nil => simp [lookupA] at h
  | cons hd tl ih =>
    obtain ⟨k', v'⟩ := hd
    simp only [lookupA] at h
    by_cases hk : k' = k
    · rw [if_pos hk] at h
      injection h with h
      subst hk
      subst h
      exact List.mem_cons_self _ _
    · rw [if_neg hk] at h
      exact List.mem_cons_of_mem _ (ih h)

theorem mem_setA {α : Type} {l : List (Nat × α)} {k : Nat} {v : α}
    {e : Nat × α} (h : e ∈ setA l k v) : e ∈ l ∨ e = (k, v) := by
  induction l with
  | nil => simp [setA] at h; simp [h]
  | cons hd tl ih =>
    by_cases hk : hd.1 = k
    · simp [setA, hk] at h
      rcases h with h | h
      · right; simp [h]
      · left; exact List.mem_cons_of_mem _ h
    · simp [setA, hk] at h
      rcases h with h | h
      · left; simp [h]
      · rcases ih h with h' | h'
        · left; exact List.mem_cons_of_mem _ h'
        · right; exact h'

theorem mem_removeA {α : Type} {l : List (Nat × α)} {k : Nat}
    {e : Nat × α} (h : e ∈ removeA l k) : e ∈ l := by
  induction l with
  | nil => simp [removeA] at h
  | cons hd tl ih =>
    by_cases hk : hd.1 = k
    · simp [removeA, hk] at h
      exact List.mem_cons_of_mem _ h
    · simp [removeA, hk] at h
      rcases h with h | h
      · simp [h]
      · exact List.mem_cons_of_mem _ (ih h)

theorem lookupA_eq_none_iff {α : Type} (l : List (Nat × α)) (k : Nat) :
    lookupA l k = none ↔ k ∉ l.map Prod.fst := by
  induction l with
  | nil => simp [lookupA]
  | cons hd tl ih =>
    obtain ⟨k', v'⟩ := hd
    by_cases hk : k' = k
    · simp [lookupA, hk]
    · simp only [lookupA, if_neg hk, List.map_cons, List.mem_cons, ih]
      constructor
      · intro h hmem
        rcases hmem with h1 | h1
        · exact hk h1.symm
        · exact h h1
      · intro h h1
        exact h (Or.inr h1)

/-! ### C9: the time bonus -/

/-- C9: for a fixed question (fixed deadline `dl` and duration `d`), the time
bonus `floor((deadline − now)/duration · 500)` is monotonically non-increasing
in the submission time `now`, and equals exactly 0 at `now = dl`. -/
theorem timeBonus_antitone_and_zero_at_deadline (dl d now1 now2 : Nat)
    (h : now1 ≤ now2) :
    timeBonusOf (dl - now2) d ≤ timeBonusOf (dl - now1) d ∧
    timeBonusOf (dl - dl) d = 0 := by
  constructor
  · exact Nat.div_le_div_right (by omega)
  · simp [timeBonusOf]

theorem timeBonus_antitone_and_zero_at_deadline_witness :
    timeBonusOf (15000 - 7500) 15000 ≤ timeBonusOf (15000 - 0) 15000 ∧
    timeBonusOf (15000 - 15000) 15000 = 0 :=
  timeBonus_antitone_and_zero_at_deadline 15000 15000 0 7500 (by decide)

/-! ### C2: incorrect answers -/

/-- C2: a submission that passes all precondition checks but is not equal to
the question's correct value yields `ok isCorrect=false gained=0
penalty=100·streak`, sets the score to `max 0 (score − 100·streak)`, resets
the streak to 0, and records `lastAnswer` with `correct=false`, `gained=0`
and that penalty. -/
theorem scoreAnswer_incorrect_penalty (s : Session) (p : Player) (ans : String)
    (now : Nat) (q : Question) (dl : Nat)
    (hq : currentQuestion s = some q)
    (hna : alreadyAnswered p q = false)
    (hdl : s.deadline = some dl) (hdl0 : dl ≠ 0) (hnow : now ≤ dl)
    (hwrong : ans ≠ q.answer) :
    scoreAnswer s p ans now =
      (.ok false 0 ((p.streak : Int) * 100) q.answer 0,
       { p with
         score := max 0 (p.score - (p.streak : Int) * 100)
         streak := 0
         lastAnswer := some
           { qid := q.id, correct := false, gained := 0,
             timeBonus := 0, streakBonus := 0,
             penalty := (p.streak : Int) * 100 } }) := by
  simp only [scoreAnswer, hq, hdl, hna, Bool.false_eq_true, if_false,
    if_neg (show ¬(dl = 0 ∨ now > dl) by omega), if_neg hwrong]

theorem scoreAnswer_incorrect_penalty_witness :
    scoreAnswer
      { id := 0, pin := 7, hostSocketId := 0, players := [],
        questions := [{ id := 5, prompt := "Q", options := ["Hello", "Bye"],
                        answer := "Hello", durationMs := 15000 }],
        questionIdx := 0, deadline := some 16000, timer := some 16050 }
      { id := 2, socketId := 1, name := "P1", score := 150,
        lastAnswer := none, streak := 2 }
      "Bye" 1000 =
      (.ok false 0 200 "Hello" 0,
       { id := 2, socketId := 1, name := "P1", score := 0,
         lastAnswer := some
           { qid := 5, correct := false, gained := 0,
             timeBonus := 0, streakBonus := 0, penalty := 200 },
         streak := 0 }) := by
  have h := scoreAnswer_incorrect_penalty
    { id := 0, pin := 7, hostSocketId := 0, players := [],
      questions := [{ id := 5, prompt := "Q", options := ["Hello", "Bye"],
                      answer := "Hello", durationMs := 15000 }],
      questionIdx := 0, deadline := some 16000, timer := some 16050 }
    { id := 2, socketId := 1, name := "P1", score := 150,
      lastAnswer := none, streak := 2 }
    "Bye" 1000
    { id := 5, prompt := "Q", options := ["Hello", "Bye"],
      answer := "Hello", durationMs := 15000 }
    16000 (by decide) (by decide) (by decide) (by decide) (by decide)
    (by decide)
  rw [h]
  decide

/-! ### C8: non-host start/advance requests -/

/-- C8: a `session:start` or `question:next` request from a connection that is
not the session's host replies `not-host` and leaves the whole server state
(hence the session's questions, index, deadline, timer and participants)
unchanged. -/
theorem not_host_rejection_no_effect (st : ServerState) (socketId pin : Nat)
    (qs : List QuestionInput) (now : Nat) (s : Session)
    (hs : lookupA st.sessions pin = some s)
    (hh : s.hostSocketId ≠ socketId) :
    onStart st socketId pin qs now = (st, .fail "not-host") ∧
    onNext st socketId pin now = (st, .fail "not-host") := by
  unfold onStart onNext
  rw [hs]
  simp [hh]

theorem not_host_rejection_no_effect_witness :
    onStart
      { sessions := [(7, { id := 0, pin := 7, hostSocketId := 0, players := [],
                           questions := [], questionIdx := -1,
                           deadline := none, timer := none })],
        nextUuid := 1 }
      3 7 [] 100 =
      ({ sessions := [(7, { id := 0, pin := 7, hostSocketId := 0, players := [],
                            questions := [], questionIdx := -1,
                            deadline := none, timer := none })],
         nextUuid := 1 }, .fail "not-host") := by
  have h := not_host_rejection_no_effect
    { sessions := [(7, { id := 0, pin := 7, hostSocketId := 0, players := [],
                         questions := [], questionIdx := -1,
                         deadline := none, timer := none })],
      nextUuid := 1 }
    3 7 [] 100
    { id := 0, pin := 7, hostSocketId := 0, players := [],
      questions := [], questionIdx := -1, deadline := none, timer := none }
    (by decide) (by decide)
  exact h.1

/-! ### C4: precondition order and failure without effect -/

/-- C4: `scoreAnswer` evaluates its precondition checks in the fixed order
no-question, already-answered, too-late; the first failing check determines
the reason and a failed call returns the participant unchanged; and after a
successful submission, any further submission by the same participant for the
same (still current) question fails with `already-answered` and leaves the
participant unchanged. -/
theorem scoreAnswer_precondition_order (s : Session) (p : Player)
    (ans : String) (now : Nat) :
    (currentQuestion s = none →
      scoreAnswer s p ans now = (.fail "no-question", p)) ∧
    (∀ q, currentQuestion s = some q → alreadyAnswered p q = true →
      scoreAnswer s p ans now = (.fail "already-answered", p)) ∧
    (∀ q, currentQuestion s = some q → alreadyAnswered p q = false →
      (s.deadline = none ∨ (∀ dl, s.deadline = some dl → dl = 0 ∨ dl < now)) →
      scoreAnswer s p ans now = (.fail "too-late", p)) ∧
    (∀ isC g pen corr stk p',
      scoreAnswer s p ans now = (.ok isC g pen corr stk, p') →
      ∀ ans' now',
        scoreAnswer s p' ans' now' = (.fail "already-answered", p')) := by
  refine ⟨?_, ?_, ?_, ?_⟩
  · intro h
    simp [scoreAnswer, h]
  · intro q hq ha
    simp [scoreAnswer, hq, ha]
  · intro q hq ha hdl
    rcases hdl with hdl | hdl
    · simp [scoreAnswer, hq, ha, hdl]
    · cases hd : s.deadline with
      | none => simp [scoreAnswer, hq, ha, hd]
      | some dl =>
        have := hdl dl hd
        simp only [scoreAnswer, hq, ha, hd, Bool.false_eq_true, if_false]
        rw [if_pos (by omega)]
  · intro isC g pen corr stk p' h ans' now'
    cases hq : currentQuestion s with
    | none => simp [scoreAnswer, hq] at h
    | some q =>
      by_cases ha : alreadyAnswered p q
      · simp [scoreAnswer, hq, ha] at h
      · cases hd : s.deadline with
        | none => simp [scoreAnswer, hq, ha, hd] at h
        | some dl =>
          by_cases h0 : dl = 0 ∨ now > dl
          · simp only [scoreAnswer, hq, hd] at h
            rw [if_neg (by simp [ha]), if_pos h0] at h
            simp at h
          · by_cases hc : ans = q.answer
            · simp only [scoreAnswer, hq, hd] at h
              rw [if_neg (by simp [ha]), if_neg h0, if_pos hc] at h
              have h2 := congrArg Prod.snd h
              simp only at h2
              subst h2
              simp [scoreAnswer, hq, alreadyAnswered]
            · simp only [scoreAnswer, hq, hd] at h
              rw [if_neg (by simp [ha]), if_neg h0, if_neg hc] at h
              have h2 := congrArg Prod.snd h
              simp only at h2
              subst h2
              simp [scoreAnswer, hq, alreadyAnswered]

theorem scoreAnswer_precondition_order_witness :
    scoreAnswer
      { id := 0, pin := 7, hostSocketId := 0, players := [],
        questions := [{ id := 5, prompt := "Q", options := ["Hello", "Bye"],
                        answer := "Hello", durationMs := 15000 }],
        questionIdx := 0, deadline := some 16000, timer := some 16050 }
      { id := 2, socketId := 1, name := "P1", score := 0,
        lastAnswer := some { qid := 5, correct := true, gained := 1600,
                             timeBonus := 500, streakBonus := 100, penalty := 0 },
        streak := 1 }
      "Hello" 2000 =
      (.fail "already-answered",
       { id := 2, socketId := 1, name := "P1", score := 0,
         lastAnswer := some { qid := 5, correct := true, gained := 1600,
                              timeBonus := 500, streakBonus := 100, penalty := 0 },
         streak := 1 }) := by
  have h := (scoreAnswer_precondition_order
    { id := 0, pin := 7, hostSocketId := 0, players := [],
      questions := [{ id := 5, prompt := "Q", options := ["Hello", "Bye"],
                      answer := "Hello", durationMs := 15000 }],
      questionIdx := 0, deadline := some 16000, timer := some 16050 }
    { id := 2, socketId := 1, name := "P1", score := 0,
      lastAnswer := some { qid := 5, correct := true, gained := 1600,
                           timeBonus := 500, streakBonus := 100, penalty := 0 },
      streak := 1 }
    "Hello" 2000).2.1
    { id := 5, prompt := "Q", options := ["Hello", "Bye"],
      answer := "Hello", durationMs := 15000 }
    (by decide) (by decide)
  exact h

/-! ### C6: the auto-advance timer margin -/

/-- C6: whenever `nextQuestion` lands on a question `q` (so the reply is ok
and a timer is armed), the armed timer's delay is `q.durationMs + 50`,
strictly greater than `q.durationMs`; its fire time is strictly after the
deadline `now + q.durationMs`, so any submission time `t ≤ deadline` is
strictly before the fire time. -/
theorem nextQuestion_timer_margin (s : Session) (now : Nat) (q : Question)
    (hq : currentQuestion (nextQuestion s now).1 = some q) :
    (nextQuestion s now).2 = Reply.nextOk ∧
    (nextQuestion s now).1.deadline = some (now + q.durationMs) ∧
    (nextQuestion s now).1.timer = some (now + q.durationMs + 50) ∧
    (now + q.durationMs + 50) - now > q.durationMs ∧
    now + q.durationMs < now + q.durationMs + 50 ∧
    (∀ t, t ≤ now + q.durationMs → t < now + q.durationMs + 50) := by
  simp only [nextQuestion] at hq ⊢
  cases hc : currentQuestion
      { s with timer := none, questionIdx := s.questionIdx + 1 } with
  | none =>
    rw [hc] at hq
    simp only at hq
    exact absurd hq (by rw [hc]; simp)
  | some q' =>
    rw [hc] at hq
    simp only at hq ⊢
    have hqq : q' = q := by
      have h1 := hc
      simp only [currentQuestion] at h1 hq
      rw [h1] at hq
      exact Option.some.inj hq
    subst hqq
    exact ⟨by simp, by simp, by simp, by omega, by omega, fun t ht => by omega⟩

theorem nextQuestion_timer_margin_witness :
    (nextQuestion
      { id := 0, pin := 7, hostSocketId := 0, players := [],
        questions := [{ id := 5, prompt := "Q", options := ["Hello", "Bye"],
                        answer := "Hello", durationMs := 15000 }],
        questionIdx := -1, deadline := none, timer := none } 100).1.deadline =
      some 15100 ∧
    (nextQuestion
      { id := 0, pin := 7, hostSocketId := 0, players := [],
        questions := [{ id := 5, prompt := "Q", options := ["Hello", "Bye"],
                        answer := "Hello", durationMs := 15000 }],
        questionIdx := -1, deadline := none, timer := none } 100).1.timer =
      some 15150 := by
  have h := nextQuestion_timer_margin
    { id := 0, pin := 7, hostSocketId := 0, players := [],
      questions := [{ id := 5, prompt := "Q", options := ["Hello", "Bye"],
                      answer := "Hello", durationMs := 15000 }],
      questionIdx := -1, deadline := none, timer := none } 100
    { id := 5, prompt := "Q", options := ["Hello", "Bye"],
      answer := "Hello", durationMs := 15000 }
    (by decide)
  exact ⟨h.2.1, h.2.2.1⟩

/-! ### C1: Scenario A -/

/-- The one question of Scenario A: answer "Hello", duration 15000 ms. -/
def scenarioAQuestion : QuestionInput :=
  { id := none, prompt := "annyeong", options := ["Hello", "Bye"],
    answer := "Hello", durationMs := some 15000 }

/-- Scenario A up to the join: create a session (host socket 0, pin 7),
start it with the one question at time 1000, join participant socket 1. -/
def scenarioAState : ServerState :=
  (onJoin (onStart (createSession initState 0 7).1 0 7 [scenarioAQuestion]
    1000).1 1 7 "P1").1

/-- The reply to P1 submitting "Hello" at time 1000 (elapsed 0). -/
def scenarioAReply : Reply := (onAnswer scenarioAState 1 7 "Hello" 1000).2

/-- C1 counterexample: the submit-answer reply of Scenario A has `ok=true`,
`streak=1` and `gained = 1600` — not ≈ 1500; it is off from 1500 by a full
100-point streak step, so the claimed value is wrong for any tolerance below
that. -/
theorem scenarioA_gained_ne_1500 :
    scenarioAReply = Reply.answerOk true 1600 0 "Hello" 1 ∧
    (1600 : Int) ≠ 1500 ∧ ¬((1600 - 1500 : Int).natAbs < 100) := by
  refine ⟨by decide, by decide, by decide⟩

/-- C1 amended: the Scenario A reply has `ok=true`, `streak=1`, and
`gained = 1600`, computed as 1000 base + `floor((deadline−now)/duration·500)`
= 500 time bonus + 100·streak = 100 streak bonus. -/
theorem scenarioA_reply_spec :
    scenarioAReply = Reply.answerOk true 1600 0 "Hello" 1 ∧
    (1600 : Int) = 1000 + (timeBonusOf (16000 - 1000) 15000 : Int) + 100 * 1 := by
  refine ⟨by decide, by decide⟩

/-! ### C10: re-joining replaces the participant record -/

theorem map_fst_setA {α : Type} (l : List (Nat × α)) (k : Nat) (v : α)
    (hp : lookupA l k ≠ none) :
    (setA l k v).map Prod.fst = l.map Prod.fst := by
  induction l with
  | nil => simp [lookupA] at hp
  | cons hd tl ih =>
    obtain ⟨k', v'⟩ := hd
    by_cases hk : k' = k
    · simp [setA, hk]
    · simp only [lookupA, if_neg hk] at hp
      simp [setA, hk, ih hp]

theorem countP_keys_eq_one {α : Type} (l : List (Nat × α)) (k : Nat)
    (hnd : (l.map Prod.fst).Nodup) (hp : lookupA l k ≠ none) :
    l.countP (fun e => e.1 == k) = 1 := by
  induction l with
  | nil => simp [lookupA] at hp
  | cons hd tl ih =>
    obtain ⟨k', v'⟩ := hd
    simp only [List.map_cons, List.nodup_cons] at hnd
    by_cases hk : k' = k
    · subst hk
      have h0 : tl.countP (fun e => e.1 == k') = 0 := by
        rw [List.countP_eq_zero]
        intro e he
        simp only [beq_iff_eq]
        intro hek
        exact hnd.1 (hek ▸ (List.mem_map_of_mem Prod.fst he))
      simp [List.countP_cons, h0]
    · simp only [lookupA, if_neg hk] at hp
      rw [List.countP_cons, ih hnd.2 hp]
      simp [hk]

/-- C10: when a connection that is already a participant of a session joins
the same session again, its record is replaced wholesale by the fresh
`addPlayer` record — new player id (the freshly generated uuid), score 0,
streak 0, no lastAnswer — and the participant map still holds exactly one
entry for that connection. -/
theorem rejoin_replaces_participant (st : ServerState) (socketId pin : Nat)
    (name : String) (s : Session) (p : Player)
    (hs : lookupA st.sessions pin = some s)
    (hp : lookupA s.players socketId = some p)
    (hnd : (s.players.map Prod.fst).Nodup) :
    ((lookupA (onJoin st socketId pin name).1.sessions pin).bind
        (fun s' => lookupA s'.players socketId)) =
      some (addPlayer s socketId (if name = "" then "Guest" else name)
        st.nextUuid).2 ∧
    (addPlayer s socketId (if name = "" then "Guest" else name)
        st.nextUuid).2.score = 0 ∧
    (addPlayer s socketId (if name = "" then "Guest" else name)
        st.nextUuid).2.streak = 0 ∧
    (addPlayer s socketId (if name = "" then "Guest" else name)
        st.nextUuid).2.lastAnswer = none ∧
    (addPlayer s socketId (if name = "" then "Guest" else name)
        st.nextUuid).2.id = st.nextUuid ∧
    ((lookupA (onJoin st socketId pin name).1.sessions pin).map
        (fun s' => s'.players.countP (fun e => e.1 == socketId))) = some 1 := by
  have hpne : lookupA s.players socketId ≠ none := by simp [hp]
  refine ⟨?_, rfl, rfl, rfl, rfl, ?_⟩
  · simp only [onJoin, hs]
    rw [lookupA_setA_self]
    simp only [Option.some_bind, addPlayer]
    rw [lookupA_setA_self]
  · simp only [onJoin, hs]
    rw [lookupA_setA_self]
    simp only [Option.map_some', addPlayer]
    rw [countP_keys_eq_one]
    · rw [map_fst_setA _ _ _ hpne]
      exact hnd
    · rw [lookupA_setA_self]
      simp

set_option maxRecDepth 4000 in
theorem rejoin_replaces_participant_witness :
    ((lookupA (onJoin
      { sessions := [(7, { id := 0, pin := 7, hostSocketId := 0,
                           players := [(1, { id := 2, socketId := 1, name := "P1",
                                             score := 1600, lastAnswer := none,
                                             streak := 1 })],
                           questions := [], questionIdx := -1,
                           deadline := none, timer := none })],
        nextUuid := 3 } 1 7 "P1").1.sessions 7).bind
        (fun s' => lookupA s'.players 1)) =
      some { id := 3, socketId := 1, name := "P1", score := 0,
             lastAnswer := none, streak := 0 } := by
  have h := rejoin_replaces_participant
    { sessions := [(7, { id := 0, pin := 7, hostSocketId := 0,
                         players := [(1, { id := 2, socketId := 1, name := "P1",
                                           score := 1600, lastAnswer := none,
                                           streak := 1 })],
                         questions := [], questionIdx := -1,
                         deadline := none, timer := none })],
      nextUuid := 3 } 1 7 "P1"
    { id := 0, pin := 7, hostSocketId := 0,
      players := [(1, { id := 2, socketId := 1, name := "P1", score := 1600,
                        lastAnswer := none, streak := 1 })],
      questions := [], questionIdx := -1, deadline := none, timer := none }
    { id := 2, socketId := 1, name := "P1", score := 1600,
      lastAnswer := none, streak := 1 }
    (by decide) (by decide) (by decide)
  rw [h.1]
  rfl

/-! ### Reachability invariants -/

theorem nextQuestion_players (s : Session) (now : Nat) :
    ((nextQuestion s now).1).players = s.players := by
  simp only [nextQuestion]
  cases hc : currentQuestion
      { s with timer := none, questionIdx := s.questionIdx + 1 } <;> simp

theorem scoreAnswer_nonneg (s : Session) (p : Player) (ans : String)
    (now : Nat) (h : 0 ≤ p.score) : 0 ≤ (scoreAnswer s p ans now).2.score := by
  simp only [scoreAnswer]
  split
  · exact h
  · split
    · exact h
    · split
      · exact h
      · split
        · exact h
        · split
          · simp only
            omega
          · simp only
            exact le_max_left 0 _

theorem applyEvent_scores_nonneg (st : ServerState) (e : Event)
    (h : ∀ en ∈ st.sessions, ∀ pe ∈ en.2.players, 0 ≤ pe.2.score) :
    ∀ en ∈ (applyEvent st e).sessions, ∀ pe ∈ en.2.players, 0 ≤ pe.2.score := by
  cases e with
  | create sid pin =>
    intro en hen pe hpe
    simp only [applyEvent, createSession] at hen
    by_cases hc : (lookupA st.sessions pin).isSome
    · rw [if_pos hc] at hen
      exact h en hen pe hpe
    · rw [if_neg hc] at hen
      simp only at hen
      rcases mem_setA hen with h1 | h1
      · exact h en h1 pe hpe
      · subst h1
        simp at hpe
  | start sid pin qs now =>
    intro en hen pe hpe
    simp only [applyEvent, onStart] at hen
    cases hs : lookupA st.sessions pin with
    | none =>
      rw [hs] at hen
      exact h en hen pe hpe
    | some s =>
      rw [hs] at hen
      simp only at hen
      by_cases hh : s.hostSocketId = sid
      · rw [if_pos hh] at hen
        simp only at hen
        rcases mem_setA hen with h1 | h1
        · exact h en h1 pe hpe
        · subst h1
          simp only at hpe
          rw [nextQuestion_players] at hpe
          simp only at hpe
          exact h (pin, s) (lookupA_mem hs) pe hpe
      · rw [if_neg hh] at hen
        exact h en hen pe hpe
  | next sid pin now =>
    intro en hen pe hpe
    simp only [applyEvent, onNext] at hen
    cases hs : lookupA st.sessions pin with
    | none =>
      rw [hs] at hen
      exact h en hen pe hpe
    | some s =>
      rw [hs] at hen
      simp only at hen
      by_cases hh : s.hostSocketId = sid
      · rw [if_pos hh] at hen
        simp only at hen
        rcases mem_setA hen with h1 | h1
        · exact h en h1 pe hpe
        · subst h1
          simp only at hpe
          rw [nextQuestion_players] at hpe
          exact h (pin, s) (lookupA_mem hs) pe hpe
      · rw [if_neg hh] at hen
        exact h en hen pe hpe
  | join sid pin name =>
    intro en hen pe hpe
    simp only [applyEvent, onJoin] at hen
    cases hs : lookupA st.sessions pin with
    | none =>
      rw [hs] at hen
      exact h en hen pe hpe
    | some s =>
      rw [hs] at hen
      simp only [addPlayer] at hen
      rcases mem_setA hen with h1 | h1
      · exact h en h1 pe hpe
      · subst h1
        simp only at hpe
        rcases mem_setA hpe with h2 | h2
        · exact h (pin, s) (lookupA_mem hs) pe h2
        · subst h2
          simp
  | answer sid pin ans now =>
    intro en hen pe hpe
    simp only [applyEvent, onAnswer] at hen
    cases hs : lookupA st.sessions pin with
    | none =>
      rw [hs] at hen
      exact h en hen pe hpe
    | some s =>
      rw [hs] at hen
      simp only at hen
      cases hp : lookupA s.players sid with
      | none =>
        rw [hp] at hen
        exact h en hen pe hpe
      | some p =>
        rw [hp] at hen
        simp only at hen
        cases hsc : scoreAnswer s p ans now with
        | mk r p' =>
          rw [hsc] at hen
          cases r with
          | fail reason =>
            simp only at hen
            exact h en hen pe hpe
          | ok isC g pen corr stk =>
            simp only at hen
            rcases mem_setA hen with h1 | h1
            · exact h en h1 pe hpe
            · subst h1
              simp only at hpe
              rcases mem_setA hpe with h2 | h2
              · exact h (pin, s) (lookupA_mem hs) pe h2
              · subst h2
                have hp2 : p' = (scoreAnswer s p ans now).2 := by rw [hsc]
                rw [hp2]
                exact scoreAnswer_nonneg s p ans now
                  (h (pin, s) (lookupA_mem hs) (sid, p) (lookupA_mem hp))
  | timerFire pin now =>
    intro en hen pe hpe
    simp only [applyEvent, onTimerFire] at hen
    cases hs : lookupA st.sessions pin with
    | none =>
      rw [hs] at hen
      exact h en hen pe hpe
    | some s =>
      rw [hs] at hen
      simp only at hen
      cases ht : s.timer with
      | none =>
        rw [ht] at hen
        exact h en hen pe hpe
      | some f =>
        rw [ht] at hen
        simp only at hen
        by_cases hf : f ≤ now
        · rw [if_pos hf] at hen
          simp only at hen
          rcases mem_setA hen with h1 | h1
          · exact h en h1 pe hpe
          · subst h1
            simp only at hpe
            rw [nextQuestion_players] at hpe
            exact h (pin, s) (lookupA_mem hs) pe hpe
        · rw [if_neg hf] at hen
          exact h en hen pe hpe
  | disconnect sid =>
    intro en hen pe hpe
    simp only [applyEvent, onDisconnect] at hen
    rcases List.mem_filterMap.mp hen with ⟨e0, he0, hfe⟩
    simp only [disconnectSession] at hfe
    by_cases hh : e0.2.hostSocketId = sid
    · rw [if_pos hh] at hfe
      cases hfe
    · rw [if_neg hh] at hfe
      by_cases hpl : (lookupA e0.2.players sid).isSome
      · rw [if_pos hpl] at hfe
        injection hfe with hfe
        subst hfe
        simp only at hpe
        exact h e0 he0 pe (mem_removeA hpe)
      · rw [if_neg hpl] at hfe
        injection hfe with hfe
        subst hfe
        exact h e0 he0 pe hpe

theorem runEvents_scores_nonneg (st : ServerState) (evs : List Event)
    (h : ∀ en ∈ st.sessions, ∀ pe ∈ en.2.players, 0 ≤ pe.2.score) :
    ∀ en ∈ (runEvents st evs).sessions, ∀ pe ∈ en.2.players, 0 ≤ pe.2.score := by
  induction evs generalizing st with
  | nil => exact h
  | cons e tl ih => exact ih (applyEvent st e) (applyEvent_scores_nonneg st e h)

/-- C3: after any sequence of operations from the empty server, every
participant of every session has a non-negative (integer) cumulative
score. -/
theorem score_nonneg_of_reachable (evs : List Event) (pin : Nat) (s : Session)
    (hs : (pin, s) ∈ (runEvents initState evs).sessions)
    (sid : Nat) (p : Player) (hp : (sid, p) ∈ s.players) : 0 ≤ p.score :=
  runEvents_scores_nonneg initState evs
    (by intro en hen; simp [initState] at hen) (pin, s) hs (sid, p) hp

set_option maxRecDepth 4000 in
theorem score_nonneg_of_reachable_witness :
    (0 : Int) ≤ (Player.mk 1 1 "P1" 0 none 0).score :=
  score_nonneg_of_reachable [.create 0 7, .join 1 7 "P1"] 7
    { id := 0, pin := 7, hostSocketId := 0,
      players := [(1, Player.mk 1 1 "P1" 0 none 0)],
      questions := [], questionIdx := -1, deadline := none, timer := none }
    (by decide) 1 (Player.mk 1 1 "P1" 0 none 0) (by decide)

/-- The per-session index/timer invariant that actually holds: the index
never drops below −1, and whenever the auto-advance timer is armed the index
is a valid question index. -/
def IdxInvP (en : Nat × Session) : Prop :=
  -1 ≤ en.2.questionIdx ∧
  (en.2.timer ≠ none → 0 ≤ en.2.questionIdx ∧
    en.2.questionIdx.toNat < en.2.questions.length)

theorem nextQuestion_idx_inv (k : Nat) (s : Session) (now : Nat)
    (h : -1 ≤ s.questionIdx) : IdxInvP (k, (nextQuestion s now).1) := by
  unfold IdxInvP
  simp only [nextQuestion]
  cases hc : currentQuestion
      { s with timer := none, questionIdx := s.questionIdx + 1 } with
  | none =>
    constructor
    · simp only
      omega
    · intro ht
      simp at ht
  | some q =>
    constructor
    · simp only
      omega
    · intro ht
      simp only [currentQuestion] at hc
      by_cases hneg : s.questionIdx + 1 < 0
      · rw [if_pos hneg] at hc
        cases hc
      · rw [if_neg hneg] at hc
        have hlt := (List.get?_eq_some.mp hc).1
        constructor
        · simp only
          omega
        · simp only
          exact hlt

theorem applyEvent_idx_inv (st : ServerState) (e : Event)
    (h : ∀ en ∈ st.sessions, IdxInvP en) :
    ∀ en ∈ (applyEvent st e).sessions, IdxInvP en := by
  cases e with
  | create sid pin =>
    intro en hen
    simp only [applyEvent, createSession] at hen
    by_cases hc : (lookupA st.sessions pin).isSome
    · rw [if_pos hc] at hen
      exact h en hen
    · rw [if_neg hc] at hen
      simp only at hen
      rcases mem_setA hen with h1 | h1
      · exact h en h1
      · subst h1
        exact ⟨by simp [IdxInvP], by simp [IdxInvP]⟩
  | start sid pin qs now =>
    intro en hen
    simp only [applyEvent, onStart] at hen
    cases hs : lookupA st.sessions pin with
    | none =>
      rw [hs] at hen
      exact h en hen
    | some s =>
      rw [hs] at hen
      simp only at hen
      by_cases hh : s.hostSocketId = sid
      · rw [if_pos hh] at hen
        simp only at hen
        rcases mem_setA hen with h1 | h1
        · exact h en h1
        · subst h1
          exact nextQuestion_idx_inv pin _ now (by simp)
      · rw [if_neg hh] at hen
        exact h en hen
  | next sid pin now =>
    intro en hen
    simp only [applyEvent, onNext] at hen
    cases hs : lookupA st.sessions pin with
    | none =>
      rw [hs] at hen
      exact h en hen
    | some s =>
      rw [hs] at hen
      simp only at hen
      by_cases hh : s.hostSocketId = sid
      · rw [if_pos hh] at hen
        simp only at hen
        rcases mem_setA hen with h1 | h1
        · exact h en h1
        · subst h1
          exact nextQuestion_idx_inv pin s now (h (pin, s) (lookupA_mem hs)).1
      · rw [if_neg hh] at hen
        exact h en hen
  | join sid pin name =>
    intro en hen
    simp only [applyEvent, onJoin] at hen
    cases hs : lookupA st.sessions pin with
    | none =>
      rw [hs] at hen
      exact h en hen
    | some s =>
      rw [hs] at hen
      simp only [addPlayer] at hen
      rcases mem_setA hen with h1 | h1
      · exact h en h1
      · subst h1
        exact h (pin, s) (lookupA_mem hs)
  | answer sid pin ans now =>
    intro en hen
    simp only [applyEvent, onAnswer] at hen
    cases hs : lookupA st.sessions pin with
    | none =>
      rw [hs] at hen
      exact h en hen
    | some s =>
      rw [hs] at hen
      simp only at hen
      cases hp : lookupA s.players sid with
      | none =>
        rw [hp] at hen
        exact h en hen
      | some p =>
        rw [hp] at hen
        simp only at hen
        cases hsc : scoreAnswer s p ans now with
        | mk r p' =>
          rw [hsc] at hen
          cases r with
          | fail reason =>
            simp only at hen
            exact h en hen
          | ok isC g pen corr stk =>
            simp only at hen
            rcases mem_setA hen with h1 | h1
            · exact h en h1
            · subst h1
              exact h (pin, s) (lookupA_mem hs)
  | timerFire pin now =>
    intro en hen
    simp only [applyEvent, onTimerFire] at hen
    cases hs : lookupA st.sessions pin with
    | none =>
      rw [hs] at hen
      exact h en hen
    | some s =>
      rw [hs] at hen
      simp only at hen
      cases ht : s.timer with
      | none =>
        rw [ht] at hen
        exact h en hen
      | some f =>
        rw [ht] at hen
        simp only at hen
        by_cases hf : f ≤ now
        · rw [if_pos hf] at hen
          simp only at hen
          rcases mem_setA hen with h1 | h1
          · exact h en h1
          · subst h1
            exact nextQuestion_idx_inv pin s now (h (pin, s) (lookupA_mem hs)).1
        · rw [if_neg hf] at hen
          exact h en hen
  | disconnect sid =>
    intro en hen
    simp only [applyEvent, onDisconnect] at hen
    rcases List.mem_filterMap.mp hen with ⟨e0, he0, hfe⟩
    simp only [disconnectSession] at hfe
    by_cases hh : e0.2.hostSocketId = sid
    · rw [if_pos hh] at hfe
      cases hfe
    · rw [if_neg hh] at hfe
      by_cases hpl : (lookupA e0.2.players sid).isSome
      · rw [if_pos hpl] at hfe
        injection hfe with hfe
        subst hfe
        exact h e0 he0
      · rw [if_neg hpl] at hfe
        injection hfe with hfe
        subst hfe
        exact h e0 he0

theorem runEvents_idx_inv (st : ServerState) (evs : List Event)
    (h : ∀ en ∈ st.sessions, IdxInvP en) :
    ∀ en ∈ (runEvents st evs).sessions, IdxInvP en := by
  induction evs generalizing st with
  | nil => exact h
  | cons e tl ih => exact ih (applyEvent st e) (applyEvent_idx_inv st e h)

/-- C5 amended: for every reachable session, the current question index is
always ≥ −1, and whenever the auto-advance timer is armed the index is a
valid index into the question list.  (The index is NOT confined to at most
one past the last valid index: repeated advance-question calls after the
session has ended keep incrementing it, see the counterexample.) -/
theorem questionIdx_lower_bound_of_reachable (evs : List Event) (pin : Nat)
    (s : Session) (hs : (pin, s) ∈ (runEvents initState evs).sessions) :
    -1 ≤ s.questionIdx ∧
    (s.timer ≠ none → 0 ≤ s.questionIdx ∧
      s.questionIdx.toNat < s.questions.length) :=
  runEvents_idx_inv initState evs
    (by intro en hen; simp [initState] at hen) (pin, s) hs

set_option maxRecDepth 8000 in
theorem questionIdx_lower_bound_of_reachable_witness :
    -1 ≤ (Session.mk 0 7 0 []
      [Question.mk 1 "Q" ["Hello", "Bye"] "Hello" 15000]
      0 (some 15100) (some 15150)).questionIdx ∧
    ((Session.mk 0 7 0 []
      [Question.mk 1 "Q" ["Hello", "Bye"] "Hello" 15000]
      0 (some 15100) (some 15150)).timer ≠ none →
      0 ≤ (Session.mk 0 7 0 []
        [Question.mk 1 "Q" ["Hello", "Bye"] "Hello" 15000]
        0 (some 15100) (some 15150)).questionIdx ∧
      (Session.mk 0 7 0 []
        [Question.mk 1 "Q" ["Hello", "Bye"] "Hello" 15000]
        0 (some 15100) (some 15150)).questionIdx.toNat <
      (Session.mk 0 7 0 []
        [Question.mk 1 "Q" ["Hello", "Bye"] "Hello" 15000]
        0 (some 15100) (some 15150)).questions.length) :=
  questionIdx_lower_bound_of_reachable
    [.create 0 7,
     .start 0 7 [QuestionInput.mk none "Q" ["Hello", "Bye"] "Hello"
       (some 15000)] 100]
    7
    (Session.mk 0 7 0 []
      [Question.mk 1 "Q" ["Hello", "Bye"] "Hello" 15000]
      0 (some 15100) (some 15150))
    (by decide)

/-- The registry after create → start with an empty question list (the index
lands at 0, the "ended" marker) → one more advance-question call. -/
def overAdvancedState : ServerState :=
  runEvents initState [.create 0 7, .start 0 7 [] 100, .next 0 7 200]

/-- The question index of the pin-7 session of `overAdvancedState`. -/
def overAdvancedIdx : Option Int :=
  (lookupA overAdvancedState.sessions 7).map Session.questionIdx

/-- The question count of the pin-7 session of `overAdvancedState`. -/
def overAdvancedLen : Option Nat :=
  (lookupA overAdvancedState.sessions 7).map
    (fun s => s.questions.length)

/-- C5 counterexample: after an advance-question call on an already-ended
session the index is 1 while the question list is empty — the index is
neither −1, nor a valid index (there are none), nor exactly one past the
last valid index (which is 0 here): the claimed invariant fails. -/
theorem questionIdx_escapes_claimed_range :
    overAdvancedIdx = some 1 ∧ overAdvancedLen = some 0 ∧
    ¬((1 : Int) = -1 ∨ ((0 : Int) ≤ 1 ∧ (1 : Int) < 0) ∨ (1 : Int) = 0) := by
  refine ⟨by decide, by decide, by decide⟩

/-! ### C7: disconnection -/

theorem lookupA_filterMap {α : Type} (f : Nat × α → Option (Nat × α))
    (hf : ∀ a b, f a = some b → b.1 = a.1) (l : List (Nat × α)) (k : Nat)
    (hnd : (l.map Prod.fst).Nodup) :
    lookupA (l.filterMap f) k =
      (lookupA l k).bind (fun v => (f (k, v)).map Prod.snd) := by
  induction l with
  | nil => simp [lookupA]
  | cons hd tl ih =>
    obtain ⟨k', v⟩ := hd
    simp only [List.map_cons, List.nodup_cons] at hnd
    rw [List.filterMap_cons]
    by_cases hk : k' = k
    · subst hk
      cases hfv : f (k', v) with
      | none =>
        rw [ih hnd.2]
        have hnone : lookupA tl k' = none :=
          (lookupA_eq_none_iff tl k').mpr hnd.1
        rw [hnone]
        simp [lookupA, hfv]
      | some b =>
        have hb := hf _ _ hfv
        simp only at hb
        simp [lookupA, hb, hfv]
    · cases hfv : f (k', v) with
      | none =>
        rw [ih hnd.2]
        simp [lookupA, hk]
      | some b =>
        have hb := hf _ _ hfv
        simp only at hb
        simp only [lookupA, if_neg (hb ▸ hk)]
        rw [ih hnd.2]
        simp [lookupA, hk]

theorem disconnectSession_key (socketId : Nat) (a b : Nat × Session)
    (h : disconnectSession socketId a = some b) : b.1 = a.1 := by
  simp only [disconnectSession] at h
  by_cases hh : a.2.hostSocketId = socketId
  · rw [if_pos hh] at h
    cases h
  · rw [if_neg hh] at h
    by_cases hp : (lookupA a.2.players socketId).isSome
    · rw [if_pos hp] at h
      injection h with h
      rw [← h]
    · rw [if_neg hp] at h
      injection h with h
      rw [← h]

/-- C7 amended: when the host of a session disconnects, the loop broadcasts
`session:end{host-left}` for it and removes it from the registry, after which
join and submit-answer on that code reply `not-found` while start-session and
advance-question reply `not-host` (their host check fails because the session
is absent); when a mere participant disconnects, the session keeps its pin
with only that participant entry removed (all other fields unchanged) and a
refreshed leaderboard is broadcast. -/
theorem disconnect_host_vs_participant (st : ServerState) (socketId pin : Nat)
    (s : Session) (hnd : (st.sessions.map Prod.fst).Nodup)
    (hs : lookupA st.sessions pin = some s) :
    (s.hostSocketId = socketId →
      Emit.sessionEnd pin "host-left" ∈ (onDisconnect st socketId).2 ∧
      lookupA (onDisconnect st socketId).1.sessions pin = none ∧
      (∀ sid2 name,
        (onJoin (onDisconnect st socketId).1 sid2 pin name).2 =
          Reply.fail "not-found") ∧
      (∀ sid2 ans now,
        (onAnswer (onDisconnect st socketId).1 sid2 pin ans now).2 =
          Reply.fail "not-found") ∧
      (∀ sid2 qs now,
        (onStart (onDisconnect st socketId).1 sid2 pin qs now).2 =
          Reply.fail "not-host") ∧
      (∀ sid2 now,
        (onNext (onDisconnect st socketId).1 sid2 pin now).2 =
          Reply.fail "not-host")) ∧
    (s.hostSocketId ≠ socketId → (lookupA s.players socketId).isSome →
      lookupA (onDisconnect st socketId).1.sessions pin =
        some { s with players := removeA s.players socketId } ∧
      Emit.leaderboard pin ∈ (onDisconnect st socketId).2) := by
  constructor
  · intro hh
    have hgone : lookupA (onDisconnect st socketId).1.sessions pin = none := by
      simp only [onDisconnect]
      rw [lookupA_filterMap (disconnectSession socketId)
        (disconnectSession_key socketId) st.sessions pin hnd, hs]
      simp [disconnectSession, hh]
    refine ⟨?_, hgone, ?_, ?_, ?_, ?_⟩
    · exact List.mem_filterMap.mpr
        ⟨(pin, s), lookupA_mem hs, by simp [disconnectEmit, hh]⟩
    · intro sid2 name
      simp [onJoin, hgone]
    · intro sid2 ans now
      simp [onAnswer, hgone]
    · intro sid2 qs now
      simp [onStart, hgone]
    · intro sid2 now
      simp [onNext, hgone]
  · intro hh hp
    constructor
    · simp only [onDisconnect]
      rw [lookupA_filterMap (disconnectSession socketId)
        (disconnectSession_key socketId) st.sessions pin hnd, hs]
      simp [disconnectSession, hh, hp]
    · exact List.mem_filterMap.mpr
        ⟨(pin, s), lookupA_mem hs, by simp [disconnectEmit, hh, hp]⟩

theorem disconnect_host_vs_participant_witness :
    Emit.sessionEnd 7 "host-left" ∈
      (onDisconnect
        { sessions := [(7, Session.mk 9 7 0 [(1, Player.mk 2 1 "P1" 0 none 0)]
            [] (-1) none none)], nextUuid := 3 } 0).2 ∧
    lookupA (onDisconnect
        { sessions := [(7, Session.mk 9 7 0 [(1, Player.mk 2 1 "P1" 0 none 0)]
            [] (-1) none none)], nextUuid := 3 } 0).1.sessions 7 = none ∧
    (onNext (onDisconnect
        { sessions := [(7, Session.mk 9 7 0 [(1, Player.mk 2 1 "P1" 0 none 0)]
            [] (-1) none none)], nextUuid := 3 } 0).1 0 7 50).2 =
      Reply.fail "not-host" ∧
    (onJoin (onDisconnect
        { sessions := [(7, Session.mk 9 7 0 [(1, Player.mk 2 1 "P1" 0 none 0)]
            [] (-1) none none)], nextUuid := 3 } 0).1 4 7 "X").2 =
      Reply.fail "not-found" := by
  have h := (disconnect_host_vs_participant
    { sessions := [(7, Session.mk 9 7 0 [(1, Player.mk 2 1 "P1" 0 none 0)]
        [] (-1) none none)], nextUuid := 3 } 0 7
    (Session.mk 9 7 0 [(1, Player.mk 2 1 "P1" 0 none 0)] [] (-1) none none)
    (by decide) (by decide)).1 (by decide)
  exact ⟨h.1, h.2.1, h.2.2.2.2.2 0 50, h.2.2.1 4 "X"⟩

/-- The registry after a host (socket 0) creates session pin 7 and then
disconnects. -/
def hostLeftState : ServerState :=
  (onDisconnect (createSession initState 0 7).1 0).1

/-- C7 counterexample: after the host disconnect the `session:end{host-left}`
broadcast goes out and the pin is gone from the registry, but a subsequent
advance-question (or start-session) request on that pin replies `not-host`,
not `not-found` as the claim states for every subsequent operation. -/
theorem host_left_advance_replies_not_host :
    (onDisconnect (createSession initState 0 7).1 0).2 =
      [Emit.sessionEnd 7 "host-left"] ∧
    lookupA hostLeftState.sessions 7 = none ∧
    (onNext hostLeftState 0 7 50).2 = Reply.fail "not-host" ∧
    (onStart hostLeftState 0 7 [] 50).2 = Reply.fail "not-host" ∧
    Reply.fail "not-host" ≠ Reply.fail "not-found" := by
  refine ⟨by decide, by decide, by decide, by decide, by decide⟩
